import Mathlib

/-!
Shallow embedding of the gh-repo-cli repository manager (a Node.js CLI that
wraps the GitHub REST API) and proofs about its client, filtering, bulk-runner
and command layers.

The remote provider is modelled explicitly: a provider listing is a list of
raw repository objects, paginated responses are windows of that list, and the
outcome of each remote mutation is passed in as a function argument of type
`Except String _` (the JS code observes exactly the success value or the
thrown error's message).  Interactive prompts (inquirer) are modelled by
passing the user's answers as arguments.
-/

namespace GhRepoCli

/-- Raw repository object as returned by the provider API.  Fields the
provider may omit (JS `undefined`) are `Option`s. -/
structure RawRepo where
  id : Nat
  name : String
  full_name : String
  description : Option String
  priv : Bool
  fork : Bool
  language : Option String
  stargazers_count : Nat
  forks_count : Nat
  updated_at : String
  created_at : String
  html_url : String
  clone_url : String
  archived : Option Bool
deriving DecidableEq

/-- Raw single-repository response of `octokit.repos.get`: the listing fields
plus the detail fields (`default_branch`, `size`, `open_issues_count`,
`topics`), where `topics` and `archived` may be omitted by the provider. -/
structure RawRepoDetail extends RawRepo where
  default_branch : String
  size : Nat
  open_issues_count : Nat
  topics : Option (List String)
deriving DecidableEq

/-- Normalized repository shape produced at the client boundary
(`github-client.js`): `archived` is always a concrete boolean. -/
structure Repo where
  id : Nat
  name : String
  full_name : String
  description : Option String
  priv : Bool
  fork : Bool
  language : Option String
  stargazers_count : Nat
  forks_count : Nat
  updated_at : String
  created_at : String
  html_url : String
  clone_url : String
  archived : Bool
deriving DecidableEq

/-- Normalized detail shape returned by `getRepository`: `topics` is always a
concrete list. -/
structure RepoDetail extends Repo where
  default_branch : String
  size : Nat
  open_issues_count : Nat
  topics : List String
deriving DecidableEq

/-- The repo-mapping lambda shared by `listRepositories` and
`searchRepositories` in `github-client.js`: copies the fields and applies
`repo.archived || false`. -/
def normalizeRepo (repo : RawRepo) : Repo :=
  { id := repo.id
    name := repo.name
    full_name := repo.full_name
    description := repo.description
    priv := repo.priv
    fork := repo.fork
    language := repo.language
    stargazers_count := repo.stargazers_count
    forks_count := repo.forks_count
    updated_at := repo.updated_at
    created_at := repo.created_at
    html_url := repo.html_url
    clone_url := repo.clone_url
    archived := repo.archived.getD false }

/-- One page of `octokit.repos.listForAuthenticatedUser`: the provider holds
the full ordered listing `all` and serves the window selected by `per_page`
and `page` (pages are 1-based). -/
def listForAuthenticatedUser (all : List RawRepo) (perPage page : Nat) : List RawRepo :=
  (all.drop ((page - 1) * perPage)).take perPage

/-- `GitHubClient.listRepositories` (github-client.js): issues a single
request with `per_page: 100, page: 2` (all in-repo callers pass no options)
and maps the response through the normalizer. -/
def listRepositories (all : List RawRepo) : List Repo :=
  (listForAuthenticatedUser all 100 2).map normalizeRepo

/-- `GitHubClient.listArchivedRepositories`: client-side filter of the full
listing on `repo.archived`. -/
def listArchivedRepositories (all : List RawRepo) : List Repo :=
  (listRepositories all).filter (fun repo => repo.archived)

/-- `GitHubClient.listActiveRepositories`: client-side filter on
`!repo.archived`. -/
def listActiveRepositories (all : List RawRepo) : List Repo :=
  (listRepositories all).filter (fun repo => !repo.archived)

/-- `GitHubClient.listPublicRepositories`: client-side filter on
`!repo.priv`. -/
def listPublicRepositories (all : List RawRepo) : List Repo :=
  (listRepositories all).filter (fun repo => !repo.priv)

/-- `GitHubClient.listPrivateRepositories`: client-side filter on
`repo.priv`. -/
def listPrivateRepositories (all : List RawRepo) : List Repo :=
  (listRepositories all).filter (fun repo => repo.priv)

/-- `GitHubClient.getRepository`: maps the detail response, applying
`data.archived || false` and `data.topics || []`. -/
def getRepository (data : RawRepoDetail) : RepoDetail :=
  { toRepo := normalizeRepo data.toRawRepo
    default_branch := data.default_branch
    size := data.size
    open_issues_count := data.open_issues_count
    topics := data.topics.getD [] }

/-- Client cache state: `this.username`, seeded from the optional
`GITHUB_USERNAME` environment variable in the constructor. -/
structure ClientState where
  username : Option String
deriving DecidableEq

/-- Observable outcome of one `getUsername` call: the value returned, the
client state afterwards, and whether the authenticated-identity endpoint was
queried during the call. -/
structure UsernameCall where
  value : String
  state : ClientState
  queriedIdentity : Bool
deriving DecidableEq

/-- `GitHubClient.getUsername`: returns the cached username if present;
otherwise queries `users.getAuthenticated` (outcome passed in as
`getAuthenticated`), caches `data.login` and returns it, wrapping a failure
message on error. -/
def getUsername (getAuthenticated : Except String String) (s : ClientState) :
    Except String UsernameCall :=
  match s.username with
  | some u => Except.ok { value := u, state := s, queriedIdentity := false }
  | none =>
    match getAuthenticated with
    | Except.ok login =>
        Except.ok { value := login
                    state := { username := some login }
                    queriedIdentity := true }
    | Except.error e => Except.error ("Failed to get username: " ++ e)

/-- A search call as issued by the client: the `q` parameter sent to
`octokit.search.repos` and the normalized results. -/
structure SearchInvocation where
  request : String
  results : List Repo
deriving DecidableEq

/-- `GitHubClient.searchRepositories` after username resolution: builds the
query string `query ++ " user:" ++ username`, issues the search request
(whose successful item list is `items`) and maps the items through the
normalizer.  The function performs no validation of `query`. -/
def searchRepositories (username query : String) (items : List RawRepo) :
    Except String SearchInvocation :=
  Except.ok { request := query ++ " user:" ++ username
              results := items.map normalizeRepo }

/-- The `validate` callback of the `getSearchQuery` prompt (utils.js): an
input is rejected exactly when `input.trim().length === 0`. -/
def getSearchQueryValidate (input : String) : Bool :=
  !(input.trim.length == 0)

/-- `getSearchQuery` (utils.js) on one prompt answer: inquirer accepts the
answer only if the validator passes, and the accepted query is returned
trimmed (`return query.trim()`); a rejected answer yields no query (the
prompt re-asks). -/
def getSearchQueryResult (input : String) : Option String :=
  if getSearchQueryValidate input then some input.trim else none

/-- A contributor entry of `repos.listContributors`. -/
structure Contributor where
  login : String
deriving DecidableEq

/-- A commit entry of `repos.listCommits`. -/
structure CommitInfo where
  message : String
  authorDate : String
deriving DecidableEq

/-- Result shape of `getRepositoryStats`. -/
structure RepoStats where
  contributors_count : Nat
  languages : List (String × Nat)
  last_commit : Option CommitInfo
deriving DecidableEq

/-- `GitHubClient.getRepositoryStats`: three independent sub-fetches, each
with a `.catch` handler substituting an empty response (`[]` resp. `{}`);
the result is assembled from the (possibly defaulted) responses, with
`last_commit` being `commits.data[0] || null`. -/
def getRepositoryStats
    (contributorsFetch : Except String (List Contributor))
    (languagesFetch : Except String (List (String × Nat)))
    (commitsFetch : Except String (List CommitInfo)) : Except String RepoStats :=
  let contributors := match contributorsFetch with
    | Except.ok d => d
    | Except.error _ => []
  let languages := match languagesFetch with
    | Except.ok d => d
    | Except.error _ => []
  let commits := match commitsFetch with
    | Except.ok d => d
    | Except.error _ => []
  Except.ok { contributors_count := contributors.length
              languages := languages
              last_commit := commits.head? }

/-- Success entry of `bulkDeleteRepositories`: `{ name: repo.name,
success: true }`. -/
structure DeleteOutcome where
  name : String
  success : Bool
deriving DecidableEq

/-- Failure entry of every bulk runner: `{ name: repo.name,
error: error.message }`. -/
structure BulkFailure where
  name : String
  error : String
deriving DecidableEq

/-- The `{ results, errors }` pair returned by `bulkDeleteRepositories`. -/
structure BulkDeleteResult where
  results : List DeleteOutcome
  errors : List BulkFailure
deriving DecidableEq

/-- Mapped response of `updateRepositoryVisibility` (the subset of provider
fields the client keeps). -/
structure VisibilityResult where
  id : Nat
  name : String
  full_name : String
  priv : Bool
  html_url : String
deriving DecidableEq

/-- Success entry of `bulkUpdateVisibility`: `{ ...result, success: true }`. -/
structure VisibilityOutcome extends VisibilityResult where
  success : Bool
deriving DecidableEq

/-- The `{ results, errors }` pair returned by `bulkUpdateVisibility`. -/
structure BulkVisibilityResult where
  results : List VisibilityOutcome
  errors : List BulkFailure
deriving DecidableEq

/-- One iteration of the `bulkDeleteRepositories` loop: try
`deleteRepository(owner, repo.name)`; push a success record on success, push
`{ name, error }` on failure, and continue either way. -/
def bulkDeleteStep (deleteRepository : String → String → Except String Unit)
    (owner : String) (acc : BulkDeleteResult) (repo : Repo) : BulkDeleteResult :=
  match deleteRepository owner repo.name with
  | Except.ok _ =>
      { acc with results := acc.results ++ [{ name := repo.name, success := true }] }
  | Except.error msg =>
      { acc with errors := acc.errors ++ [{ name := repo.name, error := msg }] }

/-- `GitHubClient.bulkDeleteRepositories`: sequential loop over `repos` in
input order, accumulating into `results` / `errors`.  The outcome of each
remote delete is given by `deleteRepository`. -/
def bulkDeleteRepositories (deleteRepository : String → String → Except String Unit)
    (owner : String) (repos : List Repo) : BulkDeleteResult :=
  repos.foldl (bulkDeleteStep deleteRepository owner) { results := [], errors := [] }

/-- One iteration of the `bulkUpdateVisibility` loop. -/
def bulkUpdateVisibilityStep
    (updateRepositoryVisibility : String → String → Bool → Except String VisibilityResult)
    (owner : String) (isPrivate : Bool) (acc : BulkVisibilityResult) (repo : Repo) :
    BulkVisibilityResult :=
  match updateRepositoryVisibility owner repo.name isPrivate with
  | Except.ok result =>
      { acc with results := acc.results ++ [{ toVisibilityResult := result, success := true }] }
  | Except.error msg =>
      { acc with errors := acc.errors ++ [{ name := repo.name, error := msg }] }

/-- `GitHubClient.bulkUpdateVisibility`: sequential loop over `repos` in
input order, accumulating into `results` / `errors`. -/
def bulkUpdateVisibility
    (updateRepositoryVisibility : String → String → Bool → Except String VisibilityResult)
    (owner : String) (repos : List Repo) (isPrivate : Bool) : BulkVisibilityResult :=
  repos.foldl (bulkUpdateVisibilityStep updateRepositoryVisibility owner isPrivate)
    { results := [], errors := [] }

/-- The success record the delete loop produces for `repo`, if any: `some`
exactly when the remote delete succeeds. -/
def deleteOutcomeOf (op : String → Except String Unit) (repo : Repo) :
    Option DeleteOutcome :=
  match op repo.name with
  | Except.ok _ => some { name := repo.name, success := true }
  | Except.error _ => none

/-- The failure record the delete loop produces for `repo`, if any. -/
def deleteFailureOf (op : String → Except String Unit) (repo : Repo) :
    Option BulkFailure :=
  match op repo.name with
  | Except.ok _ => none
  | Except.error msg => some { name := repo.name, error := msg }

/-- The success record the visibility loop produces for `repo`, if any. -/
def visibilityOutcomeOf (op : String → Except String VisibilityResult) (repo : Repo) :
    Option VisibilityOutcome :=
  match op repo.name with
  | Except.ok result => some { toVisibilityResult := result, success := true }
  | Except.error _ => none

/-- The failure record the visibility loop produces for `repo`, if any. -/
def visibilityFailureOf (op : String → Except String VisibilityResult) (repo : Repo) :
    Option BulkFailure :=
  match op repo.name with
  | Except.ok _ => none
  | Except.error msg => some { name := repo.name, error := msg }

/-- Result of the multi-select prompt in `commands.js`: either the `back`
sentinel or the chosen repositories. -/
inductive SelectionResult where
  | back
  | chosen (repos : List Repo)
deriving DecidableEq

/-- The `GitHubCommands.bulkDeleteRepositories` command (commands.js),
projected to the sequence of `deleteRepository` calls it issues: empty
listing → return; `back` from the selector → return; empty selection →
return; declined `confirmBulkAction` → return; declined final
`confirmAction` → return; otherwise the runner deletes each selected
repository in order. -/
def bulkDeleteCommandDeleteCalls (repos : List Repo) (selection : SelectionResult)
    (confirmBulk finalConfirm : Bool) : List String :=
  if repos.length = 0 then []
  else
    match selection with
    | SelectionResult.back => []
    | SelectionResult.chosen selected =>
      if selected.length = 0 then []
      else if !confirmBulk then []
      else if !finalConfirm then []
      else selected.map (fun repo => repo.name)

/-- Repositories eligible for the bulk visibility change in the
`commands.js` variant: fetch the pre-filtered subset via
`listPublicRepositories` / `listPrivateRepositories` depending on the
target. -/
def bulkChangeVisibilityEligible (all : List RawRepo) (targetVisibility : Bool) :
    List Repo :=
  if targetVisibility then listPublicRepositories all
  else listPrivateRepositories all

/-- Repositories eligible for the bulk visibility change in the legacy
variant (the duplicated commands file): client-side filter
`repos.filter(repo => repo.private !== targetVisibility)` over the full
listing. -/
def bulkChangeVisibilityEligibleClientSide (all : List RawRepo)
    (targetVisibility : Bool) : List Repo :=
  (listRepositories all).filter (fun repo => repo.priv != targetVisibility)

/-- The account summary computed by `showUserInfo` (commands.js). -/
structure UserInfoSummary where
  username : String
  total : Nat
  publicRepos : Nat
  privateRepos : Nat
  archivedRepos : Nat
  forks : Nat
  totalStars : Nat
  totalForks : Nat
deriving DecidableEq

/-- `GitHubCommands.showUserInfo`: counts derived from the fetched listing by
client-side filters and folds. -/
def showUserInfo (username : String) (repos : List Repo) : UserInfoSummary :=
  { username := username
    total := repos.length
    publicRepos := (repos.filter (fun repo => !repo.priv)).length
    privateRepos := (repos.filter (fun repo => repo.priv)).length
    archivedRepos := (repos.filter (fun repo => repo.archived)).length
    forks := (repos.filter (fun repo => repo.fork)).length
    totalStars := repos.foldl (fun sum repo => sum + repo.stargazers_count) 0
    totalForks := repos.foldl (fun sum repo => sum + repo.forks_count) 0 }

/-- A concrete raw repository used for witnesses and counterexamples. -/
def sampleRaw : RawRepo :=
  { id := 1
    name := "alpha"
    full_name := "alice/alpha"
    description := none
    priv := false
    fork := false
    language := none
    stargazers_count := 0
    forks_count := 0
    updated_at := "2024-01-01T00:00:00Z"
    created_at := "2024-01-01T00:00:00Z"
    html_url := "https://example.com/alice/alpha"
    clone_url := "https://example.com/alice/alpha.git"
    archived := none }

/-- The normalized form of `sampleRaw`. -/
def sampleRepo : Repo := normalizeRepo sampleRaw

/-- A concrete raw detail response used for witnesses. -/
def sampleDetail : RawRepoDetail :=
  { toRawRepo := sampleRaw
    default_branch := "main"
    size := 10
    open_issues_count := 0
    topics := none }

/-! Helper lemmas -/

/-- A string has length zero exactly when it is empty. -/
theorem string_length_zero_iff (s : String) : s.length = 0 ↔ s = "" := by
  cases s with
  | mk data =>
    constructor
    · intro h
      apply String.ext
      simpa [String.length] using h
    · intro h
      simp [h]

/-- Trimming the empty string yields the empty string. -/
theorem string_trim_empty : "".trim = "" := by
  simp [String.trim, Substring.trim, String.toSubstring]
  rw [Substring.takeWhileAux.eq_def]
  simp
  rw [Substring.takeRightWhileAux.eq_def]
  simp [Substring.toString, String.extract]

/-- Unrolling the delete loop from an arbitrary accumulator: successes and
failures are the `filterMap`s of the per-item outcome over the input, in
input order. -/
theorem bulkDeleteStep_foldl (deleteRepository : String → String → Except String Unit)
    (owner : String) (repos : List Repo) (acc : BulkDeleteResult) :
    repos.foldl (bulkDeleteStep deleteRepository owner) acc
      = { results := acc.results ++ repos.filterMap (deleteOutcomeOf (deleteRepository owner))
          errors := acc.errors ++ repos.filterMap (deleteFailureOf (deleteRepository owner)) } := by
  induction repos generalizing acc with
  | nil => simp
  | cons r rs ih =>
    rw [List.foldl_cons, ih]
    cases h : deleteRepository owner r.name with
    | ok v =>
      simp [bulkDeleteStep, deleteOutcomeOf, deleteFailureOf, h, List.filterMap_cons]
    | error e =>
      simp [bulkDeleteStep, deleteOutcomeOf, deleteFailureOf, h, List.filterMap_cons]

/-- Every input repository yields exactly one delete outcome: the two
`filterMap`s' lengths sum to the input length. -/
theorem deleteOutcome_lengths (op : String → Except String Unit) (repos : List Repo) :
    (repos.filterMap (deleteOutcomeOf op)).length
      + (repos.filterMap (deleteFailureOf op)).length = repos.length := by
  induction repos with
  | nil => rfl
  | cons r rs ih =>
    rw [List.filterMap_cons, List.filterMap_cons]
    cases h : op r.name with
    | ok v =>
      simp only [deleteOutcomeOf, deleteFailureOf, h, List.length_cons]
      omega
    | error e =>
      simp only [deleteOutcomeOf, deleteFailureOf, h, List.length_cons]
      omega

/-- Unrolling the visibility loop from an arbitrary accumulator. -/
theorem bulkUpdateVisibilityStep_foldl
    (updateRepositoryVisibility : String → String → Bool → Except String VisibilityResult)
    (owner : String) (isPrivate : Bool) (repos : List Repo) (acc : BulkVisibilityResult) :
    repos.foldl (bulkUpdateVisibilityStep updateRepositoryVisibility owner isPrivate) acc
      = { results := acc.results
            ++ repos.filterMap
              (visibilityOutcomeOf (fun name => updateRepositoryVisibility owner name isPrivate))
          errors := acc.errors
            ++ repos.filterMap
              (visibilityFailureOf (fun name => updateRepositoryVisibility owner name isPrivate)) } := by
  induction repos generalizing acc with
  | nil => simp
  | cons r rs ih =>
    rw [List.foldl_cons, ih]
    cases h : updateRepositoryVisibility owner r.name isPrivate with
    | ok v =>
      simp [bulkUpdateVisibilityStep, visibilityOutcomeOf, visibilityFailureOf, h,
        List.filterMap_cons]
    | error e =>
      simp [bulkUpdateVisibilityStep, visibilityOutcomeOf, visibilityFailureOf, h,
        List.filterMap_cons]

/-- Every input repository yields exactly one visibility outcome. -/
theorem visibilityOutcome_lengths (op : String → Except String VisibilityResult)
    (repos : List Repo) :
    (repos.filterMap (visibilityOutcomeOf op)).length
      + (repos.filterMap (visibilityFailureOf op)).length = repos.length := by
  induction repos with
  | nil => rfl
  | cons r rs ih =>
    rw [List.filterMap_cons, List.filterMap_cons]
    cases h : op r.name with
    | ok v =>
      simp only [visibilityOutcomeOf, visibilityFailureOf, h, List.length_cons]
      omega
    | error e =>
      simp only [visibilityOutcomeOf, visibilityFailureOf, h, List.length_cons]
      omega

/-! Claim theorems -/

/-- Claim C1: refuted on the code (code bug).  `listRepositories` issues a single
request with `per_page: 100, page: 2`, so it never follows the pagination to
completion: an identity with exactly one visible repository gets an empty
listing (the repository is missing), and an identity with 250 visible
repositories gets only 100 of them. -/
theorem claim_C1_pagination_bug :
    listRepositories [sampleRaw] = []
      ∧ (listRepositories (List.replicate 250 sampleRaw)).length = 100 := by
  constructor
  · rfl
  · simp only [listRepositories, listForAuthenticatedUser, List.length_map,
      List.length_take, List.length_drop, List.length_replicate]
    norm_num

/-- Claim C3: in the bulk-delete command, a user decline at the first confirmation
(`confirmBulkAction`) or at the delete-only final confirmation
(`confirmAction`) is terminal: no `deleteRepository` call is issued. -/
theorem claim_C3_decline_no_mutation (repos : List Repo) (selection : SelectionResult)
    (confirmBulk finalConfirm : Bool)
    (h : confirmBulk = false ∨ finalConfirm = false) :
    bulkDeleteCommandDeleteCalls repos selection confirmBulk finalConfirm = [] := by
  unfold bulkDeleteCommandDeleteCalls
  rcases h with h | h <;> subst h <;> cases selection <;> simp

/-- Claim C3 witness: a concrete session (one repository selected, first
confirmation accepted, final confirmation declined) issues no delete call. -/
theorem claim_C3_witness :
    bulkDeleteCommandDeleteCalls [sampleRepo] (SelectionResult.chosen [sampleRepo])
      true false = [] :=
  claim_C3_decline_no_mutation [sampleRepo] (SelectionResult.chosen [sampleRepo])
    true false (Or.inr rfl)

/-- Claim C5 counterexample: for the query `""` (empty after trimming), the
client's `searchRepositories` does not fail with a validation error — it
succeeds and issues the search request `" user:alice"` to the network. -/
theorem claim_C5_counterexample :
    "".trim = ""
      ∧ searchRepositories "alice" "" []
          = Except.ok { request := " user:alice", results := [] } :=
  ⟨string_trim_empty, rfl⟩

/-- Claim C5 (amended): the empty-query rejection lives in the interactive prompt,
not in the client: the `getSearchQuery` validator rejects an input exactly
when it is empty after trimming (so no network call can follow a rejected
input), an accepted input is returned trimmed, and `searchRepositories`
itself performs no validation — it succeeds (issuing the request) for every
query. -/
theorem claim_C5_prompt_validation (input username query : String)
    (items : List RawRepo) :
    getSearchQueryValidate input = (input.trim != "")
      ∧ getSearchQueryResult input
          = (if input.trim = "" then none else some input.trim)
      ∧ (searchRepositories username query items).isOk = true := by
  refine ⟨?_, ?_, rfl⟩
  · unfold getSearchQueryValidate
    rcases h : input.trim == "" with _ | _
    · have hne : ¬ input.trim = "" := by simpa using h
      have : ¬ input.trim.length = 0 := fun hl =>
        hne ((string_length_zero_iff input.trim).mp hl)
      simp [bne, h, this]
    · have heq : input.trim = "" := by simpa using h
      have : input.trim.length = 0 := by simp [heq]
      simp [bne, h, this]
  · unfold getSearchQueryResult getSearchQueryValidate
    rcases hq : decide (input.trim = "") with _ | _
    · have hne : ¬ input.trim = "" := by simpa using hq
      have : ¬ input.trim.length = 0 := fun hl =>
        hne ((string_length_zero_iff input.trim).mp hl)
      simp [this, hne]
    · have heq : input.trim = "" := by simpa using hq
      have : input.trim.length = 0 := by simp [heq]
      simp [this, heq]

/-- Claim C6: `getRepositoryStats` tolerates partial failure: the call always
succeeds; a failing contributors, languages or commits sub-fetch behaves
exactly like an empty response (empty contributor list, empty language map,
null last commit); and an empty commit history yields a `none` last-commit
field. -/
theorem claim_C6_stats_partial_failure
    (c : Except String (List Contributor))
    (l : Except String (List (String × Nat)))
    (k : Except String (List CommitInfo)) (e : String) :
    (getRepositoryStats c l k).isOk = true
      ∧ getRepositoryStats (Except.error e) l k = getRepositoryStats (Except.ok []) l k
      ∧ getRepositoryStats c (Except.error e) k = getRepositoryStats c (Except.ok []) k
      ∧ getRepositoryStats c l (Except.error e) = getRepositoryStats c l (Except.ok [])
      ∧ (getRepositoryStats c l (Except.ok [])).map RepoStats.last_commit
          = Except.ok none :=
  ⟨rfl, rfl, rfl, rfl, rfl⟩

/-- Claim C7: `getUsername` returns the cached username without querying the
identity endpoint whenever the cache is set; an uncached call queries the
endpoint once and caches the returned login; and after that write every
later call — whatever the identity endpoint would now return — yields the
same username, with the cache unchanged and no further identity query
(write-once-then-read-only). -/
theorem claim_C7_username_cache (fetch later : Except String String)
    (u login : String) :
    getUsername fetch { username := some u }
        = Except.ok { value := u
                      state := { username := some u }
                      queriedIdentity := false }
      ∧ getUsername (Except.ok login) { username := none }
          = Except.ok { value := login
                        state := { username := some login }
                        queriedIdentity := true }
      ∧ getUsername later { username := some login }
          = Except.ok { value := login
                        state := { username := some login }
                        queriedIdentity := false } :=
  ⟨rfl, rfl, rfl⟩

/-- Claim C2: both bulk runners (delete and visibility update) produce, for an
input of N targets, successes equal to the `filterMap` of the per-item
success outcome over the input (in input order) and failures equal to the
`filterMap` of the per-item failure record (name plus error message, in
input order), with the two lengths summing to N — so no outcome is lost or
duplicated and a failure at one position never blocks the later ones. -/
theorem claim_C2_bulk_runner_partition
    (deleteRepository : String → String → Except String Unit)
    (updateRepositoryVisibility : String → String → Bool → Except String VisibilityResult)
    (owner : String) (isPrivate : Bool) (repos : List Repo) :
    ((bulkDeleteRepositories deleteRepository owner repos).results
        = repos.filterMap (deleteOutcomeOf (deleteRepository owner))
      ∧ (bulkDeleteRepositories deleteRepository owner repos).errors
        = repos.filterMap (deleteFailureOf (deleteRepository owner))
      ∧ (bulkDeleteRepositories deleteRepository owner repos).results.length
          + (bulkDeleteRepositories deleteRepository owner repos).errors.length
          = repos.length)
    ∧ ((bulkUpdateVisibility updateRepositoryVisibility owner repos isPrivate).results
        = repos.filterMap
            (visibilityOutcomeOf (fun name => updateRepositoryVisibility owner name isPrivate))
      ∧ (bulkUpdateVisibility updateRepositoryVisibility owner repos isPrivate).errors
        = repos.filterMap
            (visibilityFailureOf (fun name => updateRepositoryVisibility owner name isPrivate))
      ∧ (bulkUpdateVisibility updateRepositoryVisibility owner repos isPrivate).results.length
          + (bulkUpdateVisibility updateRepositoryVisibility owner repos isPrivate).errors.length
          = repos.length) := by
  have hd := bulkDeleteStep_foldl deleteRepository owner repos { results := [], errors := [] }
  have hv := bulkUpdateVisibilityStep_foldl updateRepositoryVisibility owner isPrivate repos
    { results := [], errors := [] }
  refine ⟨⟨?_, ?_, ?_⟩, ⟨?_, ?_, ?_⟩⟩
  · rw [bulkDeleteRepositories, hd]
    simp
  · rw [bulkDeleteRepositories, hd]
    simp
  · rw [bulkDeleteRepositories, hd]
    simpa using deleteOutcome_lengths (deleteRepository owner) repos
  · rw [bulkUpdateVisibility, hv]
    simp
  · rw [bulkUpdateVisibility, hv]
    simp
  · rw [bulkUpdateVisibility, hv]
    simpa using
      visibilityOutcome_lengths (fun name => updateRepositoryVisibility owner name isPrivate)
        repos

/-- Claim C4: the derived subsets are exact partitions of the full listing: active
and archived repositories are disjoint and together a permutation of the
full listing (so their union is the listing), and the same holds for public
and private. -/
theorem claim_C4_listing_partitions (all : List RawRepo) :
    (List.Perm (listActiveRepositories all ++ listArchivedRepositories all)
        (listRepositories all)
      ∧ (listActiveRepositories all).toFinset ∩ (listArchivedRepositories all).toFinset = ∅
      ∧ (listActiveRepositories all).toFinset ∪ (listArchivedRepositories all).toFinset
          = (listRepositories all).toFinset)
    ∧ (List.Perm (listPublicRepositories all ++ listPrivateRepositories all)
        (listRepositories all)
      ∧ (listPublicRepositories all).toFinset ∩ (listPrivateRepositories all).toFinset = ∅
      ∧ (listPublicRepositories all).toFinset ∪ (listPrivateRepositories all).toFinset
          = (listRepositories all).toFinset) := by
  refine ⟨⟨?_, ?_, ?_⟩, ⟨?_, ?_, ?_⟩⟩
  · have h := List.filter_append_perm (fun repo => !repo.archived) (listRepositories all)
    simpa [listActiveRepositories, listArchivedRepositories, Bool.not_not] using h
  · ext x
    cases hb : x.archived <;>
      simp [listActiveRepositories, listArchivedRepositories, List.mem_filter, hb]
  · ext x
    cases hb : x.archived <;>
      simp [listActiveRepositories, listArchivedRepositories, List.mem_filter, hb]
  · have h := List.filter_append_perm (fun repo => !repo.priv) (listRepositories all)
    simpa [listPublicRepositories, listPrivateRepositories, Bool.not_not] using h
  · ext x
    cases hb : x.priv <;>
      simp [listPublicRepositories, listPrivateRepositories, List.mem_filter, hb]
  · ext x
    cases hb : x.priv <;>
      simp [listPublicRepositories, listPrivateRepositories, List.mem_filter, hb]

/-- Claim C8: for the same listing snapshot and target visibility, the
`commands.js` variant of the bulk-visibility command (fetching the
pre-filtered subset via the dedicated list endpoints) and the legacy variant
(client-side filter `repo.private !== targetVisibility` over the full
listing) select exactly the same eligible repositories. -/
theorem claim_C8_visibility_variants_equivalent (all : List RawRepo)
    (targetVisibility : Bool) :
    bulkChangeVisibilityEligible all targetVisibility
      = bulkChangeVisibilityEligibleClientSide all targetVisibility := by
  cases targetVisibility with
  | false =>
    unfold bulkChangeVisibilityEligible bulkChangeVisibilityEligibleClientSide
      listPrivateRepositories
    simp only [if_neg Bool.false_ne_true]
    apply List.filter_congr
    intro r _
    cases hr : r.priv <;> simp [hr]
  | true =>
    unfold bulkChangeVisibilityEligible bulkChangeVisibilityEligibleClientSide
      listPublicRepositories
    simp only [if_pos rfl]
    apply List.filter_congr
    intro r _
    cases hr : r.priv <;> simp [hr]

/-- Claim C9: the `info` summary counts are consistent with the listing: the
reported total is the listing length, the archived and private counts are
the numbers of repositories whose flag is set, and the public count equals
total minus private. -/
theorem claim_C9_info_counts (username : String) (repos : List Repo) :
    (showUserInfo username repos).total = repos.length
      ∧ (showUserInfo username repos).archivedRepos
          = repos.countP (fun repo => repo.archived)
      ∧ (showUserInfo username repos).privateRepos
          = repos.countP (fun repo => repo.priv)
      ∧ (showUserInfo username repos).publicRepos
          = (showUserInfo username repos).total
              - (showUserInfo username repos).privateRepos := by
  refine ⟨rfl, ?_, ?_, ?_⟩
  · simp [showUserInfo, List.countP_eq_length_filter]
  · simp [showUserInfo, List.countP_eq_length_filter]
  · simp only [showUserInfo]
    have h := List.length_eq_length_filter_add (l := repos) (fun repo => repo.priv)
    have hc : (repos.filter (fun repo => !(fun repo => repo.priv) repo)).length
        = (repos.filter (fun repo => !repo.priv)).length := rfl
    omega

/-- Claim C10: repository objects are normalized at the client boundary: every
repository returned by `listRepositories` (and by `searchRepositories`) is
the normalization of a raw provider object, with `archived` equal to the raw
`archived` defaulted to `false` when the provider omits it; and
`getRepository` likewise defaults `archived` to `false` and `topics` to the
empty list.  (In the embedding the normalized `archived` and `topics` fields
have non-optional types, so downstream consumers never see an absent
field.) -/
theorem claim_C10_normalization_defaults (all items : List RawRepo)
    (username query : String) (data : RawRepoDetail) :
    (∀ r ∈ listRepositories all,
        ∃ w ∈ listForAuthenticatedUser all 100 2,
          r = normalizeRepo w ∧ r.archived = w.archived.getD false)
      ∧ (∀ inv, searchRepositories username query items = Except.ok inv →
          ∀ r ∈ inv.results,
            ∃ w ∈ items, r = normalizeRepo w ∧ r.archived = w.archived.getD false)
      ∧ (getRepository data).archived = data.archived.getD false
      ∧ (getRepository data).topics = data.topics.getD [] := by
  refine ⟨?_, ?_, rfl, rfl⟩
  · intro r hr
    rw [listRepositories, List.mem_map] at hr
    obtain ⟨w, hw, hwr⟩ := hr
    exact ⟨w, hw, hwr.symm, by rw [← hwr]; rfl⟩
  · intro inv hinv r hr
    rw [searchRepositories] at hinv
    cases hinv
    rw [List.mem_map] at hr
    obtain ⟨w, hw, hwr⟩ := hr
    exact ⟨w, hw, hwr.symm, by rw [← hwr]; rfl⟩

/-- Claim C10 witness: concrete normalizations — the single repo on page 2 of a
101-repository listing, and a one-item search result — both trace back to a
raw object with an omitted `archived` field defaulted to `false`. -/
theorem claim_C10_witness :
    (∃ w ∈ listForAuthenticatedUser (List.replicate 101 sampleRaw) 100 2,
        sampleRepo = normalizeRepo w ∧ sampleRepo.archived = w.archived.getD false)
      ∧ (∃ w ∈ [sampleRaw],
          sampleRepo = normalizeRepo w ∧ sampleRepo.archived = w.archived.getD false) := by
  have h := claim_C10_normalization_defaults (List.replicate 101 sampleRaw) [sampleRaw]
    "alice" "alpha" sampleDetail
  have hlist : listRepositories (List.replicate 101 sampleRaw) = [sampleRepo] := rfl
  refine ⟨h.1 sampleRepo ?_, ?_⟩
  · rw [hlist]
    exact List.mem_singleton.mpr rfl
  · refine h.2.1 { request := "alpha user:alice", results := [sampleRepo] } rfl sampleRepo ?_
    exact List.mem_singleton.mpr rfl

end GhRepoCli
